import Mathlib

/-!
Verification development for the smart shopping cart subsystem
(src/smart_shopping_cart/). The Python sources are shallowly embedded:
strings are modelled as List Char, Python floats as exact rationals ℚ,
dictionaries as insertion-ordered association lists, and each regular
expression used by the code is implemented as a dedicated matcher whose
behaviour coincides with the regex on the inputs the code feeds it.
-/

set_option maxRecDepth 100000

namespace Cart

/-! ### Python string primitives -/

/-- Python whitespace as used by str.strip and regex \s. -/
def isPySpace (c : Char) : Bool :=
  c = ' ' || c = '\t' || c = '\n' || c = '\r' || c = '\x0b' || c = '\x0c'

/-- Python regex \w (word character); input data is ASCII. -/
def isWordChar (c : Char) : Bool :=
  c.isAlphanum || c = '_'

/-- Python str.strip(): remove leading and trailing whitespace. -/
def pyStrip (l : List Char) : List Char :=
  ((l.dropWhile isPySpace).reverse.dropWhile isPySpace).reverse

/-- Python str.lower(); input data is ASCII, where it is Char.toLower. -/
def pyLower (l : List Char) : List Char :=
  l.map Char.toLower

/-- Auxiliary state machine for collapsing whitespace runs:
the Bool records whether the previous character was whitespace. -/
def collapseAux : Bool → List Char → List Char
  | _, [] => []
  | prevSpace, c :: rest =>
    if isPySpace c then
      if prevSpace then collapseAux true rest
      else ' ' :: collapseAux true rest
    else c :: collapseAux false rest

/-- Python re.sub(r"\s+", " ", s): every whitespace run becomes one space. -/
def collapseWs (l : List Char) : List Char :=
  collapseAux false l

/-- Does pat occur as a contiguous substring of l
(Python "pat in s" and the occurrence test behind str.replace)? -/
def occursB (pat l : List Char) : Bool :=
  l.tails.any (fun t => pat.isPrefixOf t)

/-- Fuelled worker for Python str.replace(pat, ""): removes non-overlapping
occurrences of pat scanning left to right.  Fuel at least the length of the
list guarantees the fallthrough case is never reached. -/
def replFuel (pat : List Char) : Nat → List Char → List Char
  | _, [] => []
  | 0, l => l
  | n + 1, c :: rest =>
    if pat.isPrefixOf (c :: rest) then
      replFuel pat n (List.drop (pat.length - 1) rest)
    else
      c :: replFuel pat n rest

/-- Python s.replace(pat, "") for a non-empty pattern. -/
def pyReplace (l pat : List Char) : List Char :=
  replFuel pat l.length l

/-- Python s.split(" "): split on every single space character. -/
def splitSpaceAux : List Char → List Char → List (List Char)
  | cur, [] => [cur.reverse]
  | cur, c :: rest =>
    if c = ' ' then cur.reverse :: splitSpaceAux [] rest
    else splitSpaceAux (c :: cur) rest

/-- Python s.split(" "). -/
def pySplitSpace (l : List Char) : List (List Char) :=
  splitSpaceAux [] l

/-- Numeric value of a list of decimal digit characters. -/
def digitsToNat (l : List Char) : Nat :=
  l.foldl (fun n c => 10 * n + (c.toNat - 48)) 0

/-! ### The ingredient line parser (cart.py, SmartShoppingCart._parse_ingredient)

The four regex patterns are matched with re.match against the stripped
line.  In each quantity pattern every repetition except the final (.+)$ is
forced to its maximal extent: \d+ is followed by a non-digit literal or by
\s+, \s+ is followed by \w or by (.+)$ whose candidate characters are never
whitespace-only because the text was stripped, and \w+ is followed by \s+.
Hence plain maximal-munch scanning implements the regexes on the inputs
the parser feeds them (stripped, hence never ending in whitespace). -/

/-- Result of cart.py's _parse_ingredient: the three captured groups. -/
structure ParsedIngredient where
  quantity : List Char
  unit : List Char
  name : List Char
deriving Repr, DecidableEq

/-- The trailing (.+)$ of the quantity patterns and the whole bare-name
pattern r"^(.+)$": a dot never matches a newline, and the dollar accepts
the end of the string or a position just before a final newline. -/
def matchRestDollar (l : List Char) : Option (List Char) :=
  let core := if l.getLast? = some '\n' then l.dropLast else l
  if core = [] || core.contains '\n' then none else some core

/-- The common suffix \s+ (\w+) \s+ (.+)$ of the three quantity patterns,
applied after the quantity group; returns (unit, name). -/
def matchUnitName (l : List Char) : Option (List Char × List Char) :=
  let sp1 := l.takeWhile isPySpace
  let r1 := l.dropWhile isPySpace
  if sp1 = [] then none
  else
    let w := r1.takeWhile isWordChar
    let r2 := r1.dropWhile isWordChar
    if w = [] then none
    else
      let sp2 := r2.takeWhile isPySpace
      let r3 := r2.dropWhile isPySpace
      if sp2 = [] then none
      else
        match matchRestDollar r3 with
        | some nm => some (w, nm)
        | none => none

/-- Pattern r"^(\d+/\d+)\s+(\w+)\s+(.+)$". -/
def matchFracPattern (l : List Char) : Option ParsedIngredient :=
  let d1 := l.takeWhile Char.isDigit
  let r1 := l.dropWhile Char.isDigit
  if d1 = [] then none
  else
    match r1 with
    | '/' :: r2 =>
      let d2 := r2.takeWhile Char.isDigit
      let r3 := r2.dropWhile Char.isDigit
      if d2 = [] then none
      else
        match matchUnitName r3 with
        | some (u, nm) => some ⟨d1 ++ '/' :: d2, u, nm⟩
        | none => none
    | _ => none

/-- Pattern r"^(\d+\.\d+)\s+(\w+)\s+(.+)$". -/
def matchDecPattern (l : List Char) : Option ParsedIngredient :=
  let d1 := l.takeWhile Char.isDigit
  let r1 := l.dropWhile Char.isDigit
  if d1 = [] then none
  else
    match r1 with
    | '.' :: r2 =>
      let d2 := r2.takeWhile Char.isDigit
      let r3 := r2.dropWhile Char.isDigit
      if d2 = [] then none
      else
        match matchUnitName r3 with
        | some (u, nm) => some ⟨d1 ++ '.' :: d2, u, nm⟩
        | none => none
    | _ => none

/-- Pattern r"^(\d+)\s+(\w+)\s+(.+)$". -/
def matchIntPattern (l : List Char) : Option ParsedIngredient :=
  let d1 := l.takeWhile Char.isDigit
  let r1 := l.dropWhile Char.isDigit
  if d1 = [] then none
  else
    match matchUnitName r1 with
    | some (u, nm) => some ⟨d1, u, nm⟩
    | none => none

/-- cart.py _parse_ingredient: strip, return None on empty/whitespace,
then try the four patterns in order, first match wins; the bare-name
pattern yields quantity "1" and unit "". -/
def parseIngredient (s : List Char) : Option ParsedIngredient :=
  let text := pyStrip s
  if text = [] then none
  else
    match matchFracPattern text with
    | some r => some r
    | none =>
      match matchDecPattern text with
      | some r => some r
      | none =>
        match matchIntPattern text with
        | some r => some r
        | none =>
          match matchRestDollar text with
          | some nm => some ⟨['1'], [], nm⟩
          | none => none

/-- Convert a Lean string literal to the character-list representation. -/
def chars (s : String) : List Char :=
  s.data

/-! ### Word-boundary pattern search

Every regex used by the classifier and by the freshness analyzer has the
shape \b(alt|alt|...)\b where each alternative is a sequence of literal
lowercase words joined by \s+ (nested groups such as ground\s+(beef|turkey)
expand to one alternative per choice).  re.search over such a pattern
succeeds iff some alternative occurs in the text starting at a word
boundary, with its words separated by whitespace, and ending at a word
boundary.  A phrase below is the list of words of one alternative. -/

/-- Match one phrase (words joined by \s+) at the head of the text,
returning the remainder after the phrase. -/
def matchPhrase : List (List Char) → List Char → Option (List Char)
  | [], rest => some rest
  | [w], rest =>
    if w.isPrefixOf rest then some (rest.drop w.length) else none
  | w :: ws, rest =>
    if w.isPrefixOf rest then
      let r1 := rest.drop w.length
      if r1.takeWhile isPySpace = [] then none
      else matchPhrase ws (r1.dropWhile isPySpace)
    else none

/-- Does some phrase match at the head of the text and end at a word
boundary (end of text or a non-word character)? -/
def phraseHere (phrases : List (List (List Char))) (l : List Char) : Bool :=
  phrases.any fun ph =>
    match matchPhrase ph l with
    | none => false
    | some [] => true
    | some (d :: _) => !isWordChar d

/-- Scan all start positions; the Bool says whether the current position
sits at a word boundary (start of text or preceded by a non-word char). -/
def searchAux (phrases : List (List (List Char))) : Bool → List Char → Bool
  | _, [] => false
  | atB, c :: rest =>
    (atB && phraseHere phrases (c :: rest)) || searchAux phrases (!isWordChar c) rest

/-- re.search of one \b(...)\b alternation pattern in the text. -/
def searchPattern (phrases : List (List (List Char))) (l : List Char) : Bool :=
  searchAux phrases true l

/-- Does any regex of an ordered rule list match (the loops in the source
return on the first matching pattern; for the produced label only
whether some pattern matches is relevant)? -/
def searchAny (patterns : List (List (List (List Char)))) (l : List Char) : Bool :=
  patterns.any (fun p => searchPattern p l)

/-- Split a space-separated Lean literal into the words of a phrase. -/
def wordsOf (s : String) : List (List Char) :=
  pySplitSpace (chars s)

/-- Build the phrase list of one alternation regex from its alternatives. -/
def pat (alts : List String) : List (List (List Char)) :=
  alts.map wordsOf

/-! ### IngredientClassifier (ingredient_classifier.py) -/

/-- essential_patterns: proteins, main_vegetables, grains (dict order). -/
def essentialPatterns : List (List (List (List Char))) :=
  [ pat ["chicken", "beef", "pork", "fish", "salmon", "tuna", "shrimp", "eggs",
         "tofu", "beans", "lentils"],
    pat ["ground beef", "ground turkey", "ground chicken", "ground pork"],
    pat ["chicken breast", "chicken thigh", "chicken wing", "chicken drumstick"],
    pat ["beef steak", "beef roast", "beef chuck", "beef sirloin"],
    pat ["onion", "garlic", "tomato", "potato", "carrot", "celery",
         "bell pepper", "mushroom"],
    pat ["broccoli", "cauliflower", "spinach", "lettuce", "cabbage", "zucchini"],
    pat ["corn", "peas", "green beans", "asparagus", "eggplant"],
    pat ["rice", "pasta", "bread", "flour", "quinoa", "barley", "oats", "noodles"],
    pat ["spaghetti", "penne", "macaroni", "linguine", "fettuccine"] ]

/-- pantry_staples_patterns: oils_fats, spices_herbs, condiments, baking. -/
def pantryStaplesPatterns : List (List (List (List Char))) :=
  [ pat ["olive oil", "vegetable oil", "butter", "margarine", "shortening"],
    pat ["coconut oil", "sesame oil", "canola oil"],
    pat ["salt", "pepper", "garlic powder", "onion powder", "paprika"],
    pat ["oregano", "basil", "thyme", "rosemary", "parsley", "cilantro"],
    pat ["cumin", "coriander", "chili powder", "cayenne", "red pepper"],
    pat ["ginger", "turmeric", "curry powder", "bay leaves"],
    pat ["soy sauce", "vinegar", "ketchup", "mustard", "mayonnaise"],
    pat ["worcestershire", "hot sauce", "barbecue sauce"],
    pat ["lemon juice", "lime juice", "balsamic vinegar"],
    pat ["sugar", "brown sugar", "baking powder", "baking soda"],
    pat ["vanilla extract", "cocoa powder", "chocolate chips"] ]

/-- fresh_patterns. -/
def freshPatterns : List (List (List (List Char))) :=
  [ pat ["milk", "cream", "yogurt", "cheese", "butter"],
    pat ["banana", "apple", "orange", "lemon", "lime", "berries"],
    pat ["avocado", "lettuce", "spinach", "herbs", "cilantro", "parsley"],
    pat ["fresh basil", "fresh oregano", "fresh thyme", "fresh rosemary"] ]

/-- shelf_stable_patterns. -/
def shelfStablePatterns : List (List (List (List Char))) :=
  [ pat ["canned", "dried", "frozen", "jarred"],
    pat ["pasta", "rice", "beans", "lentils", "nuts", "seeds"],
    pat ["flour", "sugar", "salt", "spices", "herbs dried"],
    pat ["oil", "vinegar", "soy sauce", "hot sauce"] ]

/-- critical_patterns. -/
def criticalPatterns : List (List (List (List Char))) :=
  [ pat ["flour", "eggs", "yeast", "baking powder", "baking soda"],
    pat ["rice", "pasta", "bread", "tortillas"],
    pat ["chicken", "beef", "pork", "fish", "tofu", "beans"],
    pat ["onion", "garlic", "tomato sauce", "broth", "stock"] ]

/-- important_patterns. -/
def importantPatterns : List (List (List (List Char))) :=
  [ pat ["cheese", "butter", "cream", "milk"],
    pat ["vegetables", "herbs", "spices"],
    pat ["oil", "vinegar", "lemon juice", "lime juice"],
    pat ["salt", "pepper", "garlic powder", "onion powder"] ]

/-- optional_patterns. -/
def optionalPatterns : List (List (List (List Char))) :=
  [ pat ["garnish", "topping", "garnish", "sprinkle"],
    pat ["optional", "for garnish", "for serving"],
    pat ["extra", "additional", "more"] ]

/-- classifier high_freshness rules. -/
def clHighFreshness : List (List (List (List Char))) :=
  [ pat ["milk", "cream", "yogurt", "fresh cheese", "cottage cheese"],
    pat ["banana", "berries", "avocado", "lettuce", "spinach", "cilantro",
         "parsley"],
    pat ["fresh basil", "fresh oregano", "fresh thyme", "fresh rosemary",
         "fresh mint"],
    pat ["ground beef", "ground turkey", "ground chicken", "ground pork"] ]

/-- classifier medium_freshness rules. -/
def clMediumFreshness : List (List (List (List Char))) :=
  [ pat ["eggs", "hard cheese", "butter", "apples", "oranges", "lemons",
         "limes"],
    pat ["carrots", "celery", "bell peppers", "onions", "garlic"],
    pat ["potatoes", "sweet potatoes", "cabbage", "broccoli", "cauliflower"] ]

/-- classifier low_freshness rules. -/
def clLowFreshness : List (List (List (List Char))) :=
  [ pat ["canned", "dried", "frozen", "jarred", "pickled"],
    pat ["rice", "pasta", "flour", "sugar", "salt", "spices", "herbs dried"],
    pat ["oil", "vinegar", "soy sauce", "hot sauce", "ketchup", "mustard"],
    pat ["nuts", "seeds", "beans", "lentils", "quinoa", "barley", "oats"] ]

/-- IngredientClassifier._determine_category. -/
def determineCategory (nameL : List Char) : String :=
  if searchAny essentialPatterns nameL then "essential"
  else if searchAny pantryStaplesPatterns nameL then "pantry_staples"
  else if searchAny freshPatterns nameL then "fresh_priority"
  else if searchAny shelfStablePatterns nameL then "shelf_stable"
  else "essential"

/-- IngredientClassifier._determine_importance. -/
def determineImportance (nameL : List Char) : String :=
  if searchAny criticalPatterns nameL then "critical"
  else if searchAny importantPatterns nameL then "important"
  else if searchAny optionalPatterns nameL then "optional"
  else "important"

/-- IngredientClassifier._determine_freshness_priority. -/
def determineFreshnessPriority (nameL : List Char) : String :=
  if searchAny clHighFreshness nameL then "high"
  else if searchAny clMediumFreshness nameL then "medium"
  else if searchAny clLowFreshness nameL then "low"
  else "medium"

/-- IngredientClassifier._estimate_shelf_life. -/
def estimateShelfLife (freshness : String) : Option Nat :=
  if freshness = "high" then some 7
  else if freshness = "medium" then some 14
  else if freshness = "low" then some 90
  else none

/-- IngredientClassifier substitutions table. -/
def substitutionsTable : List (List Char × List String) :=
  [ (chars "butter", ["margarine", "coconut oil", "olive oil"]),
    (chars "milk", ["almond milk", "soy milk", "oat milk"]),
    (chars "eggs", ["flax eggs", "applesauce", "banana"]),
    (chars "flour", ["almond flour", "coconut flour", "gluten-free flour"]),
    (chars "sugar", ["honey", "maple syrup", "stevia"]),
    (chars "oil", ["butter", "coconut oil", "avocado oil"]),
    (chars "onion", ["shallots", "leeks", "onion powder"]),
    (chars "garlic", ["garlic powder", "garlic salt"]),
    (chars "tomato", ["canned tomatoes", "tomato paste", "sun-dried tomatoes"]) ]

/-- IngredientClassifier._get_substitution_suggestions: substring match,
top three suggestions. -/
def getSubstitutionSuggestions (nameL : List Char) : List String :=
  ((substitutionsTable.filter (fun kv => occursB kv.1 nameL)).flatMap
    (fun kv => kv.2)).take 3

/-- Classification record returned by classify_ingredient. -/
structure IngredientClassification where
  category : String
  importance : String
  freshness_priority : String
  shelf_life_days : Option Nat
  substitution_suggestions : List String
deriving Repr, DecidableEq

/-- IngredientClassifier.classify_ingredient. -/
def classifyIngredient (name : List Char) : IngredientClassification :=
  let nameL := pyStrip (pyLower name)
  let freshness := determineFreshnessPriority nameL
  { category := determineCategory nameL
    importance := determineImportance nameL
    freshness_priority := freshness
    shelf_life_days := estimateShelfLife freshness
    substitution_suggestions := getSubstitutionSuggestions nameL }

example : (classifyIngredient (chars "olive oil")).category = "pantry_staples" := by
  decide

example : (classifyIngredient (chars "chicken breast")).category = "essential" := by
  decide

example : (classifyIngredient (chars "milk")).freshness_priority = "high" := by
  decide

example : (classifyIngredient (chars "cilantro")).freshness_priority = "high" := by
  decide

example : (classifyIngredient (chars "flour")).category = "essential" := by
  decide

example : (classifyIngredient (chars "xylophone powder")).category = "essential" := by
  decide

/-! ### QuantityOptimizer (quantity_optimizer.py)

Python float values are modelled as exact rationals; the conversion
factors written as float literals in the source (1/16, 1/236.588, 4.227,
2.205, 1/453.592) are the corresponding exact rationals.  No claim in this
development depends on low-order bits of binary floating point. -/

/-- Python float(s) on the decimal forms the pipeline produces:
optional sign, digits with an optional fractional part.  (CPython float()
additionally accepts exponents and inf/nan spellings, which never reach
this code path.) -/
def pyFloat (l : List Char) : Option ℚ :=
  let t := pyStrip l
  let (sign, t') : ℚ × List Char :=
    match t with
    | '-' :: r => (-1, r)
    | '+' :: r => (1, r)
    | r => (1, r)
  let ip := t'.takeWhile Char.isDigit
  let r1 := t'.dropWhile Char.isDigit
  match r1 with
  | [] => if ip = [] then none else some (sign * digitsToNat ip)
  | '.' :: r2 =>
    let fp := r2.takeWhile Char.isDigit
    let r3 := r2.dropWhile Char.isDigit
    if r3 = [] && (ip ≠ [] || fp ≠ []) then
      some (sign * (digitsToNat ip + (digitsToNat fp : ℚ) / (10 : ℚ) ^ fp.length))
    else none
  | _ => none

/-- Python Fraction(s) on the forms reaching it here: optional sign,
digits, optionally a slash and digits.  A zero denominator is a
ZeroDivisionError in the source, caught by the surrounding except. -/
def pyFraction (l : List Char) : Option ℚ :=
  let t := pyStrip l
  let (sign, t') : ℚ × List Char :=
    match t with
    | '-' :: r => (-1, r)
    | '+' :: r => (1, r)
    | r => (1, r)
  let num := t'.takeWhile Char.isDigit
  let r1 := t'.dropWhile Char.isDigit
  if num = [] then none
  else
    match r1 with
    | [] => some (sign * digitsToNat num)
    | '/' :: r2 =>
      let den := r2.takeWhile Char.isDigit
      let r3 := r2.dropWhile Char.isDigit
      if den = [] || r3 ≠ [] then none
      else if digitsToNat den = 0 then none
      else some (sign * digitsToNat num / digitsToNat den)
    | _ => none

/-- QuantityOptimizer._parse_quantity: fractions, mixed numbers such as
"2 1/2", or plain numbers; any parse error yields None. -/
def parseQuantity (qs : List Char) : Option ℚ :=
  if qs = [] then none
  else
    let q := pyStrip qs
    if q.contains '/' then
      if q.contains ' ' then
        match pySplitSpace q with
        | [a, b] =>
          match pyFloat a, pyFraction b with
          | some x, some y => some (x + y)
          | _, _ => none
        | _ => none
      else pyFraction q
    else pyFloat q

/-- volume_conversions (to cups). -/
def volumeConversions : List (List Char × ℚ) :=
  [ (chars "cup", 1), (chars "cups", 1), (chars "c", 1),
    (chars "tablespoon", 1/16), (chars "tablespoons", 1/16), (chars "tbsp", 1/16),
    (chars "tsp", 1/48), (chars "teaspoon", 1/48), (chars "teaspoons", 1/48),
    (chars "pint", 2), (chars "pints", 2), (chars "pt", 2),
    (chars "quart", 4), (chars "quarts", 4), (chars "qt", 4),
    (chars "gallon", 16), (chars "gallons", 16), (chars "gal", 16),
    (chars "fluid ounce", 1/8), (chars "fluid ounces", 1/8), (chars "fl oz", 1/8),
    (chars "ml", 1000/236588), (chars "milliliter", 1000/236588),
    (chars "milliliters", 1000/236588),
    (chars "liter", 4227/1000), (chars "liters", 4227/1000),
    (chars "l", 4227/1000) ]

/-- weight_conversions (to pounds). -/
def weightConversions : List (List Char × ℚ) :=
  [ (chars "pound", 1), (chars "pounds", 1), (chars "lb", 1), (chars "lbs", 1),
    (chars "ounce", 1/16), (chars "ounces", 1/16), (chars "oz", 1/16),
    (chars "gram", 1000/453592), (chars "grams", 1000/453592),
    (chars "g", 1000/453592),
    (chars "kilogram", 2205/1000), (chars "kilograms", 2205/1000),
    (chars "kg", 2205/1000) ]

/-- count_units. -/
def countUnits : List (List Char) :=
  [ chars "piece", chars "pieces", chars "item", chars "items", chars "whole",
    chars "each", chars "ea", chars "clove", chars "cloves", chars "head",
    chars "heads", chars "bunch", chars "bunches", chars "can", chars "cans",
    chars "jar", chars "jars", chars "bottle", chars "bottles",
    chars "package", chars "packages", chars "pkg", chars "bag", chars "bags",
    chars "slice", chars "slices" ]

/-- volume_units = keys of volume_conversions. -/
def volumeUnits : List (List Char) :=
  volumeConversions.map (fun kv => kv.1)

/-- weight_units = keys of weight_conversions. -/
def weightUnits : List (List Char) :=
  weightConversions.map (fun kv => kv.1)

/-- Table lookup self.volume_conversions[u] / self.weight_conversions[u];
only evaluated under a membership guard in the source. -/
def factorOf (tbl : List (List Char × ℚ)) (u : List Char) : ℚ :=
  match tbl.lookup u with
  | some f => f
  | none => 0

/-- QuantityOptimizer._convert_quantity. -/
def convertQuantity (q : ℚ) (fromU toU : List Char) : Option ℚ :=
  if fromU = toU then some q
  else if fromU ∈ volumeUnits ∧ toU ∈ volumeUnits then
    some (q * factorOf volumeConversions fromU / factorOf volumeConversions toU)
  else if fromU ∈ weightUnits ∧ toU ∈ weightUnits then
    some (q * factorOf weightConversions fromU / factorOf weightConversions toU)
  else if fromU ∈ countUnits ∧ toU ∈ countUnits then
    some q
  else none

/-- qualifiers_to_remove of _normalize_ingredient_name, in source order. -/
def qualifiersToRemove : List (List Char) :=
  [ chars "extra virgin", chars "virgin", chars "pure", chars "organic",
    chars "fresh", chars "dried", chars "ground", chars "chopped",
    chars "diced", chars "sliced", chars "minced", chars "grated",
    chars "yellow", chars "white", chars "red", chars "green", chars "brown",
    chars "black", chars "all-purpose", chars "bread", chars "cake",
    chars "pastry", chars "self-rising", chars "unsalted", chars "salted",
    chars "sweet", chars "unsweetened", chars "low-fat", chars "fat-free",
    chars "reduced-fat", chars "whole", chars "skim", chars "large",
    chars "medium", chars "small", chars "jumbo", chars "baby" ]

/-- QuantityOptimizer._normalize_ingredient_name: lower-case and strip,
remove each qualifier substring in order (stripping after each removal),
then collapse whitespace and strip. -/
def normalizeIngredientName (name : List Char) : List Char :=
  let base := pyStrip (pyLower name)
  let stripped := qualifiersToRemove.foldl
    (fun acc q => pyStrip (pyReplace acc q)) base
  pyStrip (collapseWs stripped)

example : normalizeIngredientName (chars "extra virgin olive oil") =
    chars "olive oil" := by decide

example : normalizeIngredientName (chars "yellow onion") = chars "onion" := by
  decide

example : normalizeIngredientName (chars "fresh") = chars "" := by decide

example : normalizeIngredientName (chars "puorganicre") = chars "pure" := by
  decide

example : normalizeIngredientName (chars "pure") = chars "" := by decide

/-! ### Record shapes

The ingredient dictionaries flowing through the pipeline are modelled as
one structure; keys that only later stages add (optimization_notes,
shelf_life_days, storage_tips, warning_message) are Option fields that
default to none. -/

/-- The notes appended by _combine_quantities, one constructor per
f-string: "Could not parse quantity: {q}",
"Could not convert {q} {unit} to {target}", and
"Consider bulk purchase - total needed: {total} {unit}". -/
inductive OptNote where
  | couldNotParse (quantity : List Char)
  | couldNotConvert (q : ℚ) (fromU toU : List Char)
  | bulk (total : ℚ) (unit : List Char)
deriving Repr, DecidableEq

/-- A record as produced by _extract_ingredients_from_plan. -/
structure ExtractedRecord where
  name : List Char
  quantity : List Char
  unit : List Char
  original_text : List Char
  recipes : List (List Char)
deriving Repr, DecidableEq, Inhabited

/-- A record from _classify_ingredients onwards. -/
structure IngRecord where
  name : List Char
  quantity : List Char
  unit : List Char
  original_text : List Char
  recipes : List (List Char)
  category : String
  importance : String
  freshness_priority : String
  optimization_notes : Option (List OptNote) := none
  shelf_life_days : Option Nat := none
  storage_tips : Option (List String) := none
  warning_message : Option String := none
deriving Repr, DecidableEq, Inhabited

/-- cart.py _classify_ingredients: spread the extracted record and attach
the classifier's category, importance and freshness tag. -/
def classifyIngredients (l : List ExtractedRecord) : List IngRecord :=
  l.map fun i =>
    let c := classifyIngredient i.name
    { name := i.name, quantity := i.quantity, unit := i.unit
      original_text := i.original_text, recipes := i.recipes
      category := c.category, importance := c.importance
      freshness_priority := c.freshness_priority }

/-! ### Combining a group (QuantityOptimizer._combine_quantities) -/

/-- Parse-failure notes of the first loop, in member order. -/
def parseFailNotes (l : List IngRecord) : List OptNote :=
  l.filterMap fun i =>
    if (parseQuantity i.quantity).isSome then none
    else some (OptNote.couldNotParse i.quantity)

/-- The (quantity, lowered-stripped unit, record) triples of the members
whose quantity parses, in member order. -/
def qtriples (l : List IngRecord) : List (ℚ × List Char × IngRecord) :=
  l.filterMap fun i =>
    (parseQuantity i.quantity).map fun q => (q, pyStrip (pyLower i.unit), i)

/-- Round half to even, the rounding of Python round() (ties on the exact
value; claims do not depend on binary-float tie behaviour). -/
def roundHalfEven (y : ℚ) : ℤ :=
  let f := y.floor
  let r := y - f
  if r < 1/2 then f
  else if 1/2 < r then f + 1
  else if f % 2 = 0 then f else f + 1

/-- Python round(x, n) on the rational model. -/
def pyRound (n : Nat) (x : ℚ) : ℚ :=
  (roundHalfEven (x * 10 ^ n) : ℚ) / 10 ^ n

/-- The bulk-purchase unit whitelist of _combine_quantities. -/
def bulkUnits : List (List Char) :=
  [chars "cup", chars "cups", chars "pound", chars "pounds"]

/-- Contribution of one parsed member given the target unit: the
converted value, or the raw value when conversion is impossible. -/
def contributionTo (target : List Char) (t : ℚ × List Char × IngRecord) : ℚ :=
  match convertQuantity t.1 t.2.1 target with
  | some c => c
  | none => t.1

/-- Conversion-mismatch notes of the second loop, in member order. -/
def convertNotes (target : List Char) (qs : List (ℚ × List Char × IngRecord)) :
    List OptNote :=
  qs.filterMap fun t =>
    match convertQuantity t.1 t.2.1 target with
    | some _ => none
    | none => some (OptNote.couldNotConvert t.1 t.2.1 target)

/-- Sum of the converted quantities for a given target unit. -/
def convertedSum (target : List Char) (qs : List (ℚ × List Char × IngRecord)) : ℚ :=
  (qs.map (contributionTo target)).sum

/-- QuantityOptimizer._combine_quantities.  Groups are never empty in the
pipeline; the empty case mirrors the fallback shape. -/
def combineQuantities (l : List IngRecord) : ℚ × List Char × List OptNote :=
  let notes1 := parseFailNotes l
  match qtriples l with
  | [] => (1, (l.headI).unit, notes1)
  | qs@((_, u0, _) :: _) =>
    let target := u0
    let total := convertedSum target qs
    let rounded := if total ≥ 1 then pyRound 2 total else pyRound 3 total
    let bulkNotes :=
      if rounded > 5 ∧ target ∈ bulkUnits then [OptNote.bulk rounded target]
      else []
    (rounded, target, notes1 ++ convertNotes target qs ++ bulkNotes)

/-- Decimal rendering of a fractional part, up to the given number of
digits (totals are pre-rounded to at most three). -/
def fracDigits : Nat → Nat → Nat → List Char
  | 0, _, _ => []
  | _ + 1, 0, _ => []
  | fuel + 1, rem, den =>
    Char.ofNat (48 + rem * 10 / den) :: fracDigits fuel (rem * 10 % den) den

/-- Python str() of the combined total.  Models CPython float repr for
the short decimal values produced by pyRound; no claim depends on it. -/
def ratToChars (q : ℚ) : List Char :=
  let sign : List Char := if q < 0 then ['-'] else []
  let n := q.num.natAbs
  let den := q.den
  let fr := fracDigits 6 (n % den) den
  sign ++ Nat.toDigits 10 (n / den) ++ '.' :: (if fr = [] then ['0'] else fr)

/-- QuantityOptimizer._optimize_ingredient_group. -/
def optimizeIngredientGroup (groupName : List Char) (grp : List IngRecord) :
    IngRecord :=
  let c := combineQuantities grp
  let first := grp.headI
  { name := groupName
    quantity := ratToChars c.1
    unit := c.2.1
    original_text := ratToChars c.1 ++ ' ' :: c.2.1 ++ ' ' :: groupName
    recipes := grp.flatMap (fun i => i.recipes)
    category := first.category
    importance := first.importance
    freshness_priority := first.freshness_priority
    optimization_notes := some c.2.2 }

/-- One step of grouping by normalized name (insertion-ordered dict of
lists). -/
def groupStep (acc : List (List Char × List IngRecord)) (r : IngRecord) :
    List (List Char × List IngRecord) :=
  let k := normalizeIngredientName r.name
  if acc.any (fun kv => kv.1 == k) then
    acc.map (fun kv => if kv.1 == k then (kv.1, kv.2 ++ [r]) else kv)
  else acc ++ [(k, [r])]

/-- QuantityOptimizer._group_ingredients_by_name. -/
def groupIngredientsByName (l : List IngRecord) :
    List (List Char × List IngRecord) :=
  l.foldl groupStep []

/-- QuantityOptimizer.optimize_quantities: singleton groups pass through
unchanged, larger groups are merged. -/
def optimizeQuantities (l : List IngRecord) : List IngRecord :=
  (groupIngredientsByName l).map fun kv =>
    match kv.2 with
    | [r] => r
    | grp => optimizeIngredientGroup kv.1 grp

/-! ### FreshnessAnalyzer (freshness_analyzer.py) -/

/-- analyzer high_freshness ingredient patterns (shelf life 3). -/
def anHighFreshness : List (List (List (List Char))) :=
  [ pat ["milk", "cream", "yogurt", "fresh cheese", "cottage cheese",
         "ricotta"],
    pat ["banana", "berries", "avocado", "lettuce", "spinach", "arugula",
         "watercress"],
    pat ["fresh basil", "fresh oregano", "fresh thyme", "fresh rosemary",
         "fresh mint", "fresh cilantro", "fresh parsley"],
    pat ["ground beef", "ground turkey", "ground chicken", "ground pork",
         "ground lamb"],
    pat ["fresh fish", "fresh salmon", "fresh tuna", "fresh cod",
         "fresh shrimp", "fresh scallops"],
    pat ["soft cheese", "brie", "camembert", "goat cheese"] ]

/-- analyzer medium_freshness ingredient patterns (shelf life 10). -/
def anMediumFreshness : List (List (List (List Char))) :=
  [ pat ["eggs", "hard cheese", "cheddar", "swiss", "parmesan", "butter"],
    pat ["apples", "oranges", "lemons", "limes", "grapefruit", "pears"],
    pat ["carrots", "celery", "bell peppers", "cucumber", "zucchini"],
    pat ["onions", "garlic", "ginger", "potatoes", "sweet potatoes"],
    pat ["cabbage", "broccoli", "cauliflower", "brussels sprouts"],
    pat ["whole chicken", "whole beef", "whole pork", "whole fish"],
    pat ["bacon", "sausage", "deli meat"] ]

/-- analyzer low_freshness ingredient patterns (shelf life 60). -/
def anLowFreshness : List (List (List (List Char))) :=
  [ pat ["canned", "dried", "frozen", "jarred", "pickled"],
    pat ["rice", "pasta", "flour", "sugar", "salt", "spices", "herbs dried"],
    pat ["oil", "vinegar", "soy sauce", "hot sauce", "ketchup", "mustard"],
    pat ["nuts", "seeds", "beans", "lentils", "quinoa", "barley", "oats"],
    pat ["honey", "maple syrup", "molasses", "jam", "jelly"],
    pat ["bread", "tortillas", "crackers", "cookies"] ]

/-- storage_tips tables. -/
def storageTipsDairy : List String :=
  [ "Store in refrigerator at 40°F or below",
    "Keep in original packaging when possible",
    "Use within 3-7 days of opening" ]

/-- storage_tips produce table. -/
def storageTipsProduce : List String :=
  [ "Store in refrigerator crisper drawer",
    "Keep fruits and vegetables separate",
    "Remove any damaged or spoiled pieces" ]

/-- storage_tips herbs table. -/
def storageTipsHerbs : List String :=
  [ "Store fresh herbs in water like flowers",
    "Cover loosely with plastic bag",
    "Change water every 2-3 days" ]

/-- storage_tips meat table. -/
def storageTipsMeat : List String :=
  [ "Store in refrigerator at 40°F or below",
    "Use within 1-2 days of purchase",
    "Freeze if not using within 2 days" ]

/-- storage_tips pantry table. -/
def storageTipsPantry : List String :=
  [ "Store in cool, dry place",
    "Keep in airtight containers",
    "Check expiration dates regularly" ]

/-- FreshnessAnalyzer._get_storage_tips: substring containment checks. -/
def getStorageTips (nameL : List Char) : List String :=
  if [chars "milk", chars "cream", chars "yogurt", chars "cheese",
      chars "butter"].any (fun w => occursB w nameL) then storageTipsDairy
  else if [chars "apple", chars "orange", chars "lemon", chars "carrot",
      chars "celery", chars "onion", chars "garlic"].any
      (fun w => occursB w nameL) then storageTipsProduce
  else if [chars "basil", chars "oregano", chars "thyme", chars "rosemary",
      chars "cilantro", chars "parsley"].any
      (fun w => occursB w nameL) then storageTipsHerbs
  else if [chars "chicken", chars "beef", chars "pork", chars "fish",
      chars "meat"].any (fun w => occursB w nameL) then storageTipsMeat
  else storageTipsPantry

/-- FreshnessInfo dataclass. -/
structure FreshnessInfo where
  shelf_life_days : Nat
  freshness_priority : String
  storage_tips : List String
  warning_message : Option String
deriving Repr, DecidableEq

/-- FreshnessAnalyzer.analyze_freshness. -/
def analyzeFreshness (name : List Char) : FreshnessInfo :=
  let nameL := pyStrip (pyLower name)
  if searchAny anHighFreshness nameL then
    ⟨3, "high", getStorageTips nameL, some "Buy last - expires quickly!"⟩
  else if searchAny anMediumFreshness nameL then
    ⟨10, "medium", getStorageTips nameL, some "Use within 1-2 weeks"⟩
  else if searchAny anLowFreshness nameL then
    ⟨60, "low", getStorageTips nameL, none⟩
  else
    ⟨14, "medium", getStorageTips nameL, some "Check expiration date"⟩

/-- The dict spread in prioritize_by_freshness: it assigns to the same
freshness_priority key the classifier already set. -/
def enhanceWithFreshness (i : IngRecord) : IngRecord :=
  let info := analyzeFreshness i.name
  { i with
    shelf_life_days := some info.shelf_life_days
    freshness_priority := info.freshness_priority
    storage_tips := some info.storage_tips
    warning_message := info.warning_message }

/-- priority_order.get(x, 3). -/
def priorityKey (fp : String) : Nat :=
  if fp = "high" then 0
  else if fp = "medium" then 1
  else if fp = "low" then 2
  else 3

/-- Stable insertion of an element that originally preceded the already
sorted elements: it goes before the first element of equal or larger key. -/
def insertStable (key : IngRecord → Nat) (x : IngRecord) :
    List IngRecord → List IngRecord
  | [] => [x]
  | y :: ys =>
    if key x ≤ key y then x :: y :: ys else y :: insertStable key x ys

/-- Python list.sort(key=...) is a stable sort; any stable sort by the
same key computes the same list, here insertion sort. -/
def stableSortByKey (key : IngRecord → Nat) : List IngRecord → List IngRecord
  | [] => []
  | x :: xs => insertStable key x (stableSortByKey key xs)

/-- FreshnessAnalyzer.prioritize_by_freshness: enhance every record, then
stable-sort by priority order high < medium < low. -/
def prioritizeByFreshness (l : List IngRecord) : List IngRecord :=
  stableSortByKey (fun r => priorityKey r.freshness_priority)
    (l.map enhanceWithFreshness)

/-! ### ShoppingCart aggregation (cart.py) -/

/-- The four purchase tiers. -/
inductive Tier where
  | essential
  | pantry_staples
  | fresh_priority
  | shelf_stable
deriving Repr, DecidableEq

/-- The if/elif chain of _create_shopping_list, first match wins. -/
def tierOf (r : IngRecord) : Tier :=
  if r.category = "essential" then Tier.essential
  else if r.category = "pantry_staples" then Tier.pantry_staples
  else if r.freshness_priority = "high" then Tier.fresh_priority
  else Tier.shelf_stable

/-- ShoppingItem dataclass (estimated_cost and notes keep their None
defaults in _create_shopping_list). -/
structure ShoppingItem where
  name : List Char
  quantity : List Char
  unit : List Char
  category : String
  importance : String
  recipes : List (List Char)
  estimated_cost : Option ℚ := none
  notes : Option (List Char) := none
deriving Repr, DecidableEq

/-- Build the ShoppingItem of one consolidated record. -/
def toShoppingItem (r : IngRecord) : ShoppingItem :=
  { name := r.name, quantity := r.quantity, unit := r.unit
    category := r.category, importance := r.importance, recipes := r.recipes }

/-- ShoppingList dataclass; generated_at is a wall-clock timestamp and
total_estimated_cost is never set, both outside the pure data model. -/
structure ShoppingList where
  essential : List ShoppingItem
  pantry_staples : List ShoppingItem
  fresh_priority : List ShoppingItem
  shelf_stable : List ShoppingItem
deriving Repr, DecidableEq

/-- cart.py _create_shopping_list: the loop appends each record's item to
the single list selected by the if/elif chain, preserving input order,
which is the filter by its tier. -/
def createShoppingList (l : List IngRecord) : ShoppingList :=
  { essential := (l.filter (fun r => tierOf r == Tier.essential)).map toShoppingItem
    pantry_staples :=
      (l.filter (fun r => tierOf r == Tier.pantry_staples)).map toShoppingItem
    fresh_priority :=
      (l.filter (fun r => tierOf r == Tier.fresh_priority)).map toShoppingItem
    shelf_stable :=
      (l.filter (fun r => tierOf r == Tier.shelf_stable)).map toShoppingItem }

/-! ### Extraction (cart.py _extract_ingredients_from_plan) -/

/-- meal_data: .get('name', 'Unknown Recipe') and .get('ingredients', []). -/
structure MealData where
  name : Option (List Char) := none
  ingredients : Option (List (List Char)) := none
deriving Repr, DecidableEq

/-- daily_plan: .get('meals', \x7b\x7d). -/
structure DailyPlan where
  meals : Option (List (List Char × MealData)) := none
deriving Repr, DecidableEq

/-- The weekly plan: a dict keyed by day name. -/
def WeeklyPlan : Type :=
  List (List Char × DailyPlan)

/-- The fixed day iteration order. -/
def daysList : List (List Char) :=
  [chars "Monday", chars "Tuesday", chars "Wednesday", chars "Thursday",
   chars "Friday", chars "Saturday", chars "Sunday"]

/-- The fixed meal iteration order. -/
def mealsList : List (List Char) :=
  [chars "breakfast", chars "lunch", chars "dinner"]

/-- One ingredient line occurrence with its provenance data. -/
structure Occurrence where
  day : List Char
  mealType : List Char
  recipeName : List Char
  text : List Char
deriving Repr, DecidableEq

/-- All ingredient-line occurrences of a weekly plan, in the source's
day-major, meal-minor iteration order; absent days or meals contribute
nothing. -/
def planOccurrences (wp : WeeklyPlan) : List Occurrence :=
  daysList.flatMap fun d =>
    match wp.lookup d with
    | none => []
    | some dp =>
      mealsList.flatMap fun m =>
        match (dp.meals.getD []).lookup m with
        | none => []
        | some md =>
          (md.ingredients.getD []).map fun ing =>
            ⟨d, m, md.name.getD (chars "Unknown Recipe"), ing⟩

/-- The provenance f-string "{day} {meal_type}: {recipe_name}". -/
def prov (o : Occurrence) : List Char :=
  o.day ++ ' ' :: o.mealType ++ ':' :: ' ' :: o.recipeName

/-- ingredient_key = parsed['name'].lower().strip(). -/
def keyOfName (n : List Char) : List Char :=
  pyStrip (pyLower n)

/-- The key under which an extracted record sits in ingredient_map. -/
def keyOf (r : ExtractedRecord) : List Char :=
  keyOfName r.name

/-- The in-place update of an existing ingredient_map entry: the record
under the repeated key gains one provenance string. -/
def updRec (k prv : List Char) (r : ExtractedRecord) : ExtractedRecord :=
  if keyOf r == k then { r with recipes := r.recipes ++ [prv] } else r

/-- The Boolean "this record sits under key k" test. -/
def keyP (k : List Char) (r : ExtractedRecord) : Bool :=
  keyOf r == k

/-- One loop iteration of _extract_ingredients_from_plan: unparsable
lines are dropped; a repeated key only appends its provenance; a new key
appends a fresh record. -/
def extractStep (acc : List ExtractedRecord) (o : Occurrence) :
    List ExtractedRecord :=
  match parseIngredient o.text with
  | none => acc
  | some p =>
    let k := keyOfName p.name
    if acc.any (keyP k) then
      acc.map (updRec k (prov o))
    else acc ++ [⟨p.name, p.quantity, p.unit, o.text, [prov o]⟩]

/-- cart.py _extract_ingredients_from_plan: fold the occurrences into the
insertion-ordered ingredient_map and return its values. -/
def extractIngredientsFromPlan (wp : WeeklyPlan) : List ExtractedRecord :=
  (planOccurrences wp).foldl extractStep []

/-- cart.py generate_shopping_list: the five-stage pipeline (the
recommendations step returns an empty list and feeds nothing into the
final list). -/
def generateShoppingList (wp : WeeklyPlan) : ShoppingList :=
  createShoppingList
    (prioritizeByFreshness
      (optimizeQuantities
        (classifyIngredients
          (extractIngredientsFromPlan wp))))

/-! ### Derived notions used to state the claims -/

/-- The three unit families of the conversion tables. -/
inductive UnitCat where
  | volume
  | weight
  | count
deriving Repr, DecidableEq

/-- The unit category of a canonical unit string, when it has one. -/
def unitCategory (u : List Char) : Option UnitCat :=
  if u ∈ volumeUnits then some UnitCat.volume
  else if u ∈ weightUnits then some UnitCat.weight
  else if u ∈ countUnits then some UnitCat.count
  else none

/-- The parseable occurrences of an occurrence list whose parsed name has
the given extraction key, in iteration order. -/
def occsMatching (occs : List Occurrence) (k : List Char) :
    List (Occurrence × ParsedIngredient) :=
  occs.filterMap fun o =>
    match parseIngredient o.text with
    | none => none
    | some p => if keyOfName p.name == k then some (o, p) else none

/-- The parseable occurrences of a weekly plan with the given key. -/
def matchingOccs (wp : WeeklyPlan) (k : List Char) :
    List (Occurrence × ParsedIngredient) :=
  occsMatching (planOccurrences wp) k

/-! ### Concrete inputs used by witnesses and counterexamples -/

/-- A weekly plan in which one recipe needs "1 cup flour" and another
needs "0.5 cup flour". -/
def c1Plan : WeeklyPlan :=
  [ (chars "Monday",
     { meals := some
        [ (chars "breakfast",
           { name := some (chars "Pancakes"),
             ingredients := some [chars "1 cup flour"] }),
          (chars "lunch",
           { name := some (chars "Bread"),
             ingredients := some [chars "0.5 cup flour"] }) ] }) ]

/-- An extracted record for "cilantro": the classifier tags it high
freshness while the analyzer computes medium. -/
def c2Extracted : ExtractedRecord :=
  { name := chars "cilantro", quantity := chars "1", unit := chars ""
    original_text := chars "cilantro"
    recipes := [chars "Monday dinner: Salsa"] }

/-- A classified group of two records summing to seven cups of flour. -/
def c7grp : List IngRecord :=
  [ { name := chars "flour", quantity := chars "3", unit := chars "cups"
      original_text := chars "3 cups flour", recipes := [chars "Monday lunch: Bread"]
      category := "essential", importance := "critical"
      freshness_priority := "low" },
    { name := chars "flour", quantity := chars "4", unit := chars "cups"
      original_text := chars "4 cups flour", recipes := [chars "Friday dinner: Cake"]
      category := "essential", importance := "critical"
      freshness_priority := "low" } ]

/-- First member of the mixed-unit group: a volume unit. -/
def c8recA : IngRecord :=
  { name := chars "butter", quantity := chars "1", unit := chars "cup"
    original_text := chars "1 cup butter"
    recipes := [chars "Monday lunch: Toast"]
    category := "pantry_staples", importance := "important"
    freshness_priority := "medium" }

/-- Second member of the mixed-unit group: a weight unit. -/
def c8recB : IngRecord :=
  { name := chars "butter", quantity := chars "2", unit := chars "pounds"
    original_text := chars "2 pounds butter"
    recipes := [chars "Friday dinner: Cake"]
    category := "pantry_staples", importance := "important"
    freshness_priority := "medium" }

/-- A classified group mixing a volume unit and a weight unit. -/
def c8grp : List IngRecord :=
  [c8recA, c8recB]

/-- A consolidated record whose category (pantry_staples) and freshness
priority (high) compete: the tier is decided by the category. -/
def c3rec : IngRecord :=
  { name := chars "milk", quantity := chars "1", unit := chars "cup"
    original_text := chars "1 cup milk"
    recipes := [chars "Monday breakfast: Oatmeal"]
    category := "pantry_staples", importance := "important"
    freshness_priority := "high" }

/-- The record the analyzer emits for the classified "cilantro" record:
its freshness_priority is the analyzer's "medium", not the classifier's
"high". -/
def c2outRec : IngRecord :=
  { name := chars "cilantro", quantity := chars "1", unit := chars ""
    original_text := chars "cilantro"
    recipes := [chars "Monday dinner: Salsa"]
    category := "pantry_staples", importance := "important"
    freshness_priority := "medium"
    optimization_notes := none
    shelf_life_days := some 14
    storage_tips := some storageTipsHerbs
    warning_message := some "Check expiration date" }

/-- A weekly plan in which two meals both need milk, with different
quantities. -/
def c10Plan : WeeklyPlan :=
  [ (chars "Monday",
     { meals := some
        [ (chars "breakfast",
           { name := some (chars "Oatmeal"),
             ingredients := some [chars "1 cup milk"] }) ] }),
    (chars "Tuesday",
     { meals := some
        [ (chars "dinner",
           { name := some (chars "Pudding"),
             ingredients := some [chars "2 cups milk"] }) ] }) ]

/-! ### Helper lemmas about the string primitives -/

theorem mem_dropWhile_of {p : Char → Bool} {l : List Char} {c : Char}
    (hc : c ∈ l) (hp : p c = false) : c ∈ l.dropWhile p := by
  induction l with
  | nil => cases hc
  | cons a t ih =>
    rw [List.dropWhile_cons]
    by_cases ha : p a = true
    · rcases List.mem_cons.mp hc with rfl | hmem
      · rw [ha] at hp; cases hp
      · simp [ha, ih hmem]
    · simp [ha, hc]

theorem head?_dropWhile {p : Char → Bool} {l : List Char} {c : Char}
    (h : (l.dropWhile p).head? = some c) : p c = false := by
  induction l with
  | nil => cases h
  | cons a t ih =>
    rw [List.dropWhile_cons] at h
    by_cases ha : p a = true
    · rw [if_pos ha] at h; exact ih h
    · rw [if_neg ha] at h
      cases h
      exact Bool.eq_false_iff.mpr ha

theorem dropWhile_eq_self {p : Char → Bool} {l : List Char}
    (h : ∀ c, l.head? = some c → p c = false) : l.dropWhile p = l := by
  cases l with
  | nil => rfl
  | cons a t => rw [List.dropWhile_cons, if_neg]; simp [h a rfl]

theorem dropWhile_idem (p : Char → Bool) (l : List Char) :
    (l.dropWhile p).dropWhile p = l.dropWhile p :=
  dropWhile_eq_self fun _ hc => head?_dropWhile hc

theorem mem_pyStrip {l : List Char} {c : Char}
    (hc : c ∈ l) (hp : isPySpace c = false) : c ∈ pyStrip l := by
  unfold pyStrip
  exact List.mem_reverse.mpr
    (mem_dropWhile_of (List.mem_reverse.mpr (mem_dropWhile_of hc hp)) hp)

theorem pyStrip_ne_nil {l : List Char} {c : Char}
    (hc : c ∈ l) (hp : isPySpace c = false) : pyStrip l ≠ [] := by
  intro h
  have := mem_pyStrip hc hp
  rw [h] at this
  cases this

theorem pyStrip_head_not (l : List Char) {c : Char}
    (h : (pyStrip l).head? = some c) : isPySpace c = false := by
  unfold pyStrip at h
  rw [List.head?_reverse] at h
  rcases List.dropWhile_suffix (l := (l.dropWhile isPySpace).reverse)
      isPySpace with ⟨u, hu⟩
  have hz : ((l.dropWhile isPySpace).reverse).getLast? = some c := by
    conv_lhs => rw [← hu]
    rw [List.getLast?_append, h, Option.or_some]
  rw [List.getLast?_reverse] at hz
  exact head?_dropWhile hz

theorem pyStrip_pyStrip (l : List Char) : pyStrip (pyStrip l) = pyStrip l := by
  have h1 : (pyStrip l).dropWhile isPySpace = pyStrip l :=
    dropWhile_eq_self fun _ hc => pyStrip_head_not l hc
  show (((pyStrip l).dropWhile isPySpace).reverse.dropWhile isPySpace).reverse
      = pyStrip l
  rw [h1]
  show ((((l.dropWhile isPySpace).reverse.dropWhile
      isPySpace).reverse).reverse.dropWhile isPySpace).reverse = _
  rw [List.reverse_reverse, dropWhile_idem]
  rfl

theorem occursB_cons (pat : List Char) (c : Char) (rest : List Char) :
    occursB pat (c :: rest) =
      (pat.isPrefixOf (c :: rest) || occursB pat rest) := by
  simp [occursB, List.tails_cons]

theorem replFuel_id {pat : List Char} :
    ∀ (n : Nat) (l : List Char), occursB pat l = false → l.length ≤ n →
      replFuel pat n l = l := by
  intro n
  induction n with
  | zero =>
    intro l _ hlen
    cases l with
    | nil => rfl
    | cons a t => cases hlen
  | succ n ih =>
    intro l hocc hlen
    cases l with
    | nil => rfl
    | cons a t =>
      rw [occursB_cons] at hocc
      rcases Bool.or_eq_false_iff.mp hocc with ⟨hpre, hrest⟩
      show (if pat.isPrefixOf (a :: t) then _ else _) = _
      rw [if_neg (by simp [hpre])]
      rw [ih t hrest (Nat.le_of_succ_le_succ hlen)]

theorem pyReplace_id {l pat : List Char} (h : occursB pat l = false) :
    pyReplace l pat = l :=
  replFuel_id l.length l h (Nat.le_refl _)

theorem mem_collapseAux {c : Char} :
    ∀ {l : List Char}, c ∈ l → isPySpace c = false →
      ∀ b, c ∈ collapseAux b l := by
  intro l
  induction l with
  | nil => intro hc; cases hc
  | cons a t ih =>
    intro hc hp b
    by_cases ha : isPySpace a = true
    · have hmem : c ∈ t := by
        rcases List.mem_cons.mp hc with rfl | hmem
        · rw [ha] at hp; cases hp
        · exact hmem
      cases b with
      | true =>
        simp only [collapseAux, ha, if_true]
        exact ih hmem hp true
      | false =>
        simp only [collapseAux, ha, if_true, if_false]
        exact List.mem_cons_of_mem _ (ih hmem hp true)
    · simp only [collapseAux, ha, if_false]
      rcases List.mem_cons.mp hc with rfl | hmem
      · exact List.mem_cons_self _ _
      · exact List.mem_cons_of_mem _ (ih hmem hp false)

theorem foldl_stripReplace_id {y : List Char} (qs : List (List Char))
    (hs : pyStrip y = y) (h : ∀ q ∈ qs, occursB q y = false) :
    qs.foldl (fun acc q => pyStrip (pyReplace acc q)) y = y := by
  induction qs with
  | nil => rfl
  | cons q qs ih =>
    rw [List.foldl_cons, pyReplace_id (h q (List.mem_cons_self _ _)), hs]
    exact ih fun q hq => h q (List.mem_cons_of_mem _ hq)

/-! ### Helper lemmas about sorting and searching -/

theorem mem_insertStable {key : IngRecord → Nat} {x r : IngRecord} :
    ∀ {l : List IngRecord}, r ∈ insertStable key x l ↔ (r = x ∨ r ∈ l) := by
  intro l
  induction l with
  | nil => simp [insertStable]
  | cons y ys ih =>
    show r ∈ (if key x ≤ key y then _ else _) ↔ _
    by_cases hk : key x ≤ key y
    · rw [if_pos hk]; simp
    · rw [if_neg hk]
      simp only [List.mem_cons, ih]
      tauto

theorem mem_stableSortByKey {key : IngRecord → Nat} {r : IngRecord} :
    ∀ {l : List IngRecord}, r ∈ stableSortByKey key l ↔ r ∈ l := by
  intro l
  induction l with
  | nil => simp [stableSortByKey]
  | cons x xs ih =>
    show r ∈ insertStable key x (stableSortByKey key xs) ↔ _
    rw [mem_insertStable]
    simp [ih]

theorem find?_map_comm {f : ExtractedRecord → ExtractedRecord}
    {p : ExtractedRecord → Bool} (hf : ∀ x, p (f x) = p x) :
    ∀ (l : List ExtractedRecord), (l.map f).find? p = (l.find? p).map f := by
  intro l
  induction l with
  | nil => rfl
  | cons a t ih =>
    rw [List.map_cons]
    by_cases ha : p a = true
    · rw [List.find?_cons_of_pos _ (by rw [hf]; exact ha),
        List.find?_cons_of_pos _ ha]
      rfl
    · rw [List.find?_cons_of_neg _ (by rw [hf]; simp [ha]),
        List.find?_cons_of_neg _ (by simp [ha]), ih]

/-! ### Claims -/

/-- C1: the spec requires "1 cup flour" and "0.5 cup flour" from two
recipes to merge into one record with quantity 1.5 and unit "cup";
evaluating the pipeline shows the generated list instead carries the
first occurrence's quantity "1" (extraction discards the second
occurrence's quantity before the optimizer runs, per the source's own
TODO), with both provenance strings present. -/
theorem C1_extraction_discards_duplicate_quantity :
    generateShoppingList c1Plan =
      { essential :=
          [ { name := chars "flour", quantity := chars "1",
              unit := chars "cup", category := "essential",
              importance := "critical",
              recipes := [chars "Monday breakfast: Pancakes",
                          chars "Monday lunch: Bread"] } ],
        pantry_staples := [], fresh_priority := [], shelf_stable := [] }
    ∧ chars "1" ≠ chars "1.5" := by
  constructor
  · decide
  · decide

/-- C2 counterexample: for "cilantro" the classifier attaches freshness
tag "high", but after prioritize_by_freshness the record's single
freshness_priority field holds the analyzer's "medium" — the classifier's
tag is replaced, not retained alongside. -/
theorem C2_counterexample :
    (classifyIngredients [c2Extracted]).map (fun r => r.freshness_priority)
        = ["high"]
    ∧ (prioritizeByFreshness (classifyIngredients [c2Extracted])).map
        (fun r => r.freshness_priority) = ["medium"] := by
  constructor
  · decide
  · decide

/-- C4 counterexample: "a" ++ newline ++ "b" is neither empty nor
whitespace-only, yet the parser returns null, refuting the claimed
"if and only if". -/
theorem C4_counterexample :
    parseIngredient (chars "a\nb") = none
    ∧ chars "a\nb" ≠ [] ∧ pyStrip (chars "a\nb") ≠ [] := by
  decide

/-- C5 counterexample: the non-empty input "fresh" normalizes to the
empty string, because qualifier removal consumes the whole name. -/
theorem C5_counterexample :
    chars "fresh" ≠ [] ∧ normalizeIngredientName (chars "fresh") = [] := by
  decide

/-- C6 counterexample: normalization is not idempotent: removing the
qualifier "organic" from "puorganicre" re-exposes the qualifier "pure",
which only a second pass removes. -/
theorem C6_counterexample :
    normalizeIngredientName (normalizeIngredientName (chars "puorganicre"))
        ≠ normalizeIngredientName (chars "puorganicre")
    ∧ normalizeIngredientName (chars "puorganicre") = chars "pure"
    ∧ normalizeIngredientName (chars "pure") = [] := by
  decide

/-- C9 counterexample: the parser has no unit vocabulary; on
"2 fluid ounces milk" it takes the single token "fluid" as the unit and
folds "ounces" into the name, misparsing the multi-word unit boundary. -/
theorem C9_counterexample :
    parseIngredient (chars "2 fluid ounces milk") =
      some ⟨chars "2", chars "fluid", chars "ounces milk"⟩
    ∧ chars "fluid" ≠ chars "fluid ounces" := by
  decide

/-- C6 amended: normalization leaves a name unchanged when the name is
already in normalized shape — lower-case, stripped, whitespace-collapsed —
and contains no removable qualifier as a substring; idempotence fails in
general (see the counterexample). -/
theorem C6_amended_idempotent (y : List Char)
    (hlow : ∀ c ∈ y, Char.toLower c = c)
    (hstrip : pyStrip y = y)
    (hcoll : collapseWs y = y)
    (hq : ∀ q ∈ qualifiersToRemove, occursB q y = false) :
    normalizeIngredientName y = y := by
  have hl : pyLower y = y := by
    unfold pyLower
    rw [List.map_congr_left hlow]
    exact List.map_id _
  show pyStrip (collapseWs (qualifiersToRemove.foldl
      (fun acc q => pyStrip (pyReplace acc q)) (pyStrip (pyLower y)))) = y
  rw [hl, hstrip, foldl_stripReplace_id qualifiersToRemove hstrip hq,
    hcoll, hstrip]

/-- C6 amended witness at the already-normalized name "olive oil". -/
theorem C6_amended_idempotent_witness :
    normalizeIngredientName (chars "olive oil") = chars "olive oil" :=
  C6_amended_idempotent (chars "olive oil") (by decide) (by decide)
    (by decide) (by decide)

/-- C5 amended: normalization is a pure function of the name; the
normalized name is non-empty for every input whose lower-cased stripped
form is non-empty and contains none of the removable qualifiers as a
substring (inputs consisting of qualifier text alone can normalize to the
empty string, see the counterexample). -/
theorem C5_amended_nonempty (name : List Char)
    (hne : pyStrip (pyLower name) ≠ [])
    (hq : ∀ q ∈ qualifiersToRemove,
      occursB q (pyStrip (pyLower name)) = false) :
    normalizeIngredientName name ≠ [] := by
  have hstrip : pyStrip (pyStrip (pyLower name)) = pyStrip (pyLower name) :=
    pyStrip_pyStrip _
  show pyStrip (collapseWs (qualifiersToRemove.foldl
      (fun acc q => pyStrip (pyReplace acc q)) (pyStrip (pyLower name)))) ≠ []
  rw [foldl_stripReplace_id qualifiersToRemove hstrip hq]
  obtain ⟨c, tl, hcons⟩ : ∃ c tl, pyStrip (pyLower name) = c :: tl := by
    cases h : pyStrip (pyLower name) with
    | nil => exact absurd h hne
    | cons c tl => exact ⟨c, tl, rfl⟩
  have hcns : isPySpace c = false :=
    pyStrip_head_not (pyLower name) (by rw [hcons]; rfl)
  have hmem : c ∈ collapseWs (pyStrip (pyLower name)) :=
    mem_collapseAux (by rw [hcons]; exact List.mem_cons_self _ _) hcns false
  exact pyStrip_ne_nil hmem hcns

/-- C5 amended witness at the qualifier-free name "salt". -/
theorem C5_amended_nonempty_witness :
    normalizeIngredientName (chars "salt") ≠ [] :=
  C5_amended_nonempty (chars "salt") (by decide) (by decide)

/-- Any unit produced by matchUnitName is a single \w+ token. -/
theorem matchUnitName_all_word {l u nm : List Char}
    (h : matchUnitName l = some (u, nm)) : u.all isWordChar = true := by
  unfold matchUnitName at h
  dsimp only at h
  split at h
  · cases h
  · split at h
    · cases h
    · split at h
      · cases h
      · split at h
        · cases h
          exact List.all_eq_true.mpr fun c hc => List.mem_takeWhile_imp hc
        · cases h

/-- Any unit produced by the fraction pattern is a single \w+ token. -/
theorem matchFracPattern_all_word {l : List Char} {r : ParsedIngredient}
    (h : matchFracPattern l = some r) : r.unit.all isWordChar = true := by
  unfold matchFracPattern at h
  dsimp only at h
  split at h
  · cases h
  · split at h
    · split at h
      · cases h
      · split at h
        · rename_i hm
          cases h
          exact matchUnitName_all_word hm
        · cases h
    · cases h

/-- Any unit produced by the decimal pattern is a single \w+ token. -/
theorem matchDecPattern_all_word {l : List Char} {r : ParsedIngredient}
    (h : matchDecPattern l = some r) : r.unit.all isWordChar = true := by
  unfold matchDecPattern at h
  dsimp only at h
  split at h
  · cases h
  · split at h
    · split at h
      · cases h
      · split at h
        · rename_i hm
          cases h
          exact matchUnitName_all_word hm
        · cases h
    · cases h

/-- Any unit produced by the integer pattern is a single \w+ token. -/
theorem matchIntPattern_all_word {l : List Char} {r : ParsedIngredient}
    (h : matchIntPattern l = some r) : r.unit.all isWordChar = true := by
  unfold matchIntPattern at h
  dsimp only at h
  split at h
  · cases h
  · split at h
    · rename_i hm
      cases h
      exact matchUnitName_all_word hm
    · cases h

/-- C9 amended: the parser performs no unit-vocabulary lookup; whenever a
line parses, the unit is either empty (bare-name fallback) or the single
\w+ token after the quantity — it never contains a space, so a multi-word
unit is always split at its first word. -/
theorem C9_amended_single_token_unit (s : List Char) (r : ParsedIngredient)
    (h : parseIngredient s = some r) : r.unit.all isWordChar = true := by
  unfold parseIngredient at h
  dsimp only at h
  split at h
  · cases h
  · split at h
    · rename_i hm
      cases h
      exact matchFracPattern_all_word hm
    · split at h
      · rename_i hm
        cases h
        exact matchDecPattern_all_word hm
      · split at h
        · rename_i hm
          cases h
          exact matchIntPattern_all_word hm
        · split at h
          · cases h
            rfl
          · cases h

/-- C9 amended witness: the unit parsed from "2 fluid ounces milk" is the
single word-character token "fluid". -/
theorem C9_amended_single_token_unit_witness :
    (chars "fluid").all isWordChar = true :=
  C9_amended_single_token_unit (chars "2 fluid ounces milk")
    ⟨chars "2", chars "fluid", chars "ounces milk"⟩ (by decide)

/-- On a non-empty newline-free text the bare-name pattern always
matches, capturing the whole text. -/
theorem matchRestDollar_no_newline {t : List Char}
    (hne : t ≠ []) (hnl : '\n' ∉ t) : matchRestDollar t = some t := by
  have hlast : ¬ t.getLast? = some '\n' := by
    intro hl
    rcases List.getLast?_eq_some_iff.mp hl with ⟨ys, hys⟩
    exact hnl (by rw [hys]; simp)
  have hc : t.contains '\n' = false := by
    cases hb : t.contains '\n' with
    | false => rfl
    | true => exact absurd (by simpa using hb) hnl
  unfold matchRestDollar
  dsimp only
  rw [if_neg hlast, if_neg]
  simp [hne, hc, hnl]

/-- C4 amended: the parser returns null for empty or whitespace-only
input; every input whose trimmed text is non-empty and free of newline
characters yields a parse result, and when none of the three quantity
patterns matches, it is exactly the bare-name fallback with quantity "1"
and unit "".  (A non-whitespace input containing an interior newline can
also return null — see the counterexample — so null is not equivalent to
empty/whitespace input.) -/
theorem C4_amended_null_behavior (s : List Char) :
    (pyStrip s = [] → parseIngredient s = none)
    ∧ (pyStrip s ≠ [] → '\n' ∉ pyStrip s →
        (∃ r, parseIngredient s = some r)
        ∧ (matchFracPattern (pyStrip s) = none →
           matchDecPattern (pyStrip s) = none →
           matchIntPattern (pyStrip s) = none →
           parseIngredient s = some ⟨chars "1", [], pyStrip s⟩)) := by
  constructor
  · intro h
    unfold parseIngredient
    dsimp only
    rw [if_pos h]
  · intro hne hnl
    have hrest : matchRestDollar (pyStrip s) = some (pyStrip s) :=
      matchRestDollar_no_newline hne hnl
    constructor
    · unfold parseIngredient
      dsimp only
      rw [if_neg hne]
      cases hf : matchFracPattern (pyStrip s) with
      | some r => exact ⟨r, rfl⟩
      | none =>
        cases hd : matchDecPattern (pyStrip s) with
        | some r => exact ⟨r, rfl⟩
        | none =>
          cases hi : matchIntPattern (pyStrip s) with
          | some r => exact ⟨r, rfl⟩
          | none => rw [hrest]; exact ⟨_, rfl⟩
    · intro h1 h2 h3
      unfold parseIngredient
      dsimp only
      rw [if_neg hne, h1, h2, h3, hrest]
      rfl

/-- C4 amended witness: "  pepper  " trims to the newline-free "pepper",
no quantity pattern matches, and the parser returns the bare-name
fallback. -/
theorem C4_amended_null_behavior_witness :
    parseIngredient (chars "  pepper  ") =
      some ⟨chars "1", [], pyStrip (chars "  pepper  ")⟩ :=
  ((C4_amended_null_behavior (chars "  pepper  ")).2 (by decide)
    (by decide)).2 (by decide) (by decide) (by decide)

/-- C3: bucketing is total and exclusive, first match wins: the tier is
essential iff the category is essential; pantry_staples iff the category
is pantry_staples (and not essential); fresh_priority iff neither
category matched and the freshness priority is high; shelf_stable
otherwise — so category always takes precedence over freshness — and the
four lists of the created shopping list partition the input records. -/
theorem C3_tier_bucketing :
    (∀ r : IngRecord,
      (tierOf r = Tier.essential ↔ r.category = "essential")
      ∧ (tierOf r = Tier.pantry_staples ↔
          (r.category ≠ "essential" ∧ r.category = "pantry_staples"))
      ∧ (tierOf r = Tier.fresh_priority ↔
          (r.category ≠ "essential" ∧ r.category ≠ "pantry_staples"
            ∧ r.freshness_priority = "high"))
      ∧ (tierOf r = Tier.shelf_stable ↔
          (r.category ≠ "essential" ∧ r.category ≠ "pantry_staples"
            ∧ r.freshness_priority ≠ "high")))
    ∧ (∀ l : List IngRecord,
        (createShoppingList l).essential.length
          + (createShoppingList l).pantry_staples.length
          + (createShoppingList l).fresh_priority.length
          + (createShoppingList l).shelf_stable.length = l.length) := by
  constructor
  · intro r
    unfold tierOf
    by_cases h1 : r.category = "essential" <;>
      by_cases h2 : r.category = "pantry_staples" <;>
        by_cases h3 : r.freshness_priority = "high" <;>
          simp [h1, h2, h3]
  · intro l
    induction l with
    | nil => rfl
    | cons r t ih =>
      simp only [createShoppingList, List.filter_cons, List.length_map,
        List.length_cons] at ih ⊢
      cases htier : tierOf r <;> simp [htier] <;> omega

/-- C3 witness: a pantry_staples record with high freshness priority is
bucketed by its category, and a one-record list lands in exactly one
tier. -/
theorem C3_tier_bucketing_witness :
    tierOf c3rec = Tier.pantry_staples
    ∧ (createShoppingList [c3rec]).essential.length
        + (createShoppingList [c3rec]).pantry_staples.length
        + (createShoppingList [c3rec]).fresh_priority.length
        + (createShoppingList [c3rec]).shelf_stable.length = 1 :=
  ⟨(C3_tier_bucketing.1 c3rec).2.1.mpr ⟨by decide, by decide⟩,
   C3_tier_bucketing.2 [c3rec]⟩

/-- C2 amended: the analyzer stage overwrites the freshness_priority the
classifier attached: every record it outputs carries the analyzer's own
freshness analysis of the record's name in the single freshness_priority
field (together with the analyzer's shelf life and warning); the
classifier's tag is not separately retained. -/
theorem C2_amended_overwrite (l : List IngRecord) (r : IngRecord)
    (hr : r ∈ prioritizeByFreshness l) :
    r.freshness_priority = (analyzeFreshness r.name).freshness_priority
    ∧ r.shelf_life_days = some (analyzeFreshness r.name).shelf_life_days
    ∧ r.warning_message = (analyzeFreshness r.name).warning_message := by
  have hmem : r ∈ l.map enhanceWithFreshness := mem_stableSortByKey.mp hr
  rcases List.mem_map.mp hmem with ⟨i, _, rfl⟩
  exact ⟨rfl, rfl, rfl⟩

/-- C2 amended witness: the record the analyzer outputs for the
classified "cilantro" record carries the analyzer's freshness data. -/
theorem C2_amended_overwrite_witness :
    c2outRec.freshness_priority
        = (analyzeFreshness c2outRec.name).freshness_priority
    ∧ c2outRec.shelf_life_days
        = some (analyzeFreshness c2outRec.name).shelf_life_days
    ∧ c2outRec.warning_message
        = (analyzeFreshness c2outRec.name).warning_message :=
  C2_amended_overwrite (classifyIngredients [c2Extracted]) c2outRec
    (by decide)

/-- No parse-failure note is a bulk note. -/
theorem bulk_not_mem_parseFailNotes {l : List IngRecord} {x : ℚ}
    {u : List Char} : OptNote.bulk x u ∉ parseFailNotes l := by
  intro hmem
  rcases List.mem_filterMap.mp hmem with ⟨a, _, ha⟩
  split at ha
  · cases ha
  · cases ha

/-- No conversion-mismatch note is a bulk note. -/
theorem bulk_not_mem_convertNotes {target : List Char}
    {qs : List (ℚ × List Char × IngRecord)} {x : ℚ} {u : List Char} :
    OptNote.bulk x u ∉ convertNotes target qs := by
  intro hmem
  rcases List.mem_filterMap.mp hmem with ⟨a, _, ha⟩
  split at ha
  · cases ha
  · cases ha

/-- C7: for a group with at least one parseable quantity, the combined
quantity is the converted sum rounded to 2 decimal places when the sum is
at least 1 and to 3 otherwise; the target unit is the first parsed
member's unit; and the "consider bulk purchase" note is appended exactly
when the (rounded) total exceeds 5 and the target unit is cup, cups,
pound or pounds. -/
theorem C7_rounding_and_bulk (l : List IngRecord)
    (h : qtriples l ≠ []) :
    (combineQuantities l).1 =
      (if 1 ≤ convertedSum ((qtriples l).headI.2.1) (qtriples l)
       then pyRound 2 (convertedSum ((qtriples l).headI.2.1) (qtriples l))
       else pyRound 3 (convertedSum ((qtriples l).headI.2.1) (qtriples l)))
    ∧ (combineQuantities l).2.1 = (qtriples l).headI.2.1
    ∧ (OptNote.bulk (combineQuantities l).1 ((qtriples l).headI.2.1)
          ∈ (combineQuantities l).2.2
        ↔ (5 < (combineQuantities l).1
            ∧ (qtriples l).headI.2.1 ∈ bulkUnits)) := by
  cases hq : qtriples l with
  | nil => exact absurd hq h
  | cons q0 rest =>
    have hcomb : combineQuantities l =
        (if 1 ≤ convertedSum q0.2.1 (q0 :: rest)
         then pyRound 2 (convertedSum q0.2.1 (q0 :: rest))
         else pyRound 3 (convertedSum q0.2.1 (q0 :: rest)),
         q0.2.1,
         parseFailNotes l ++ convertNotes q0.2.1 (q0 :: rest) ++
           (if (if 1 ≤ convertedSum q0.2.1 (q0 :: rest)
                then pyRound 2 (convertedSum q0.2.1 (q0 :: rest))
                else pyRound 3 (convertedSum q0.2.1 (q0 :: rest))) > 5
               ∧ q0.2.1 ∈ bulkUnits
            then [OptNote.bulk
                   (if 1 ≤ convertedSum q0.2.1 (q0 :: rest)
                    then pyRound 2 (convertedSum q0.2.1 (q0 :: rest))
                    else pyRound 3 (convertedSum q0.2.1 (q0 :: rest)))
                   q0.2.1]
            else [])) := by
      unfold combineQuantities
      rw [hq]
    rw [hcomb]
    dsimp only [List.headI]
    refine ⟨rfl, rfl, ?_⟩
    by_cases hbc : 5 <
        (if 1 ≤ convertedSum q0.2.1 (q0 :: rest)
         then pyRound 2 (convertedSum q0.2.1 (q0 :: rest))
         else pyRound 3 (convertedSum q0.2.1 (q0 :: rest)))
        ∧ q0.2.1 ∈ bulkUnits
    · rw [if_pos hbc]
      exact ⟨fun _ => hbc,
        fun _ => List.mem_append_right _ (List.mem_cons_self _ _)⟩
    · rw [if_neg hbc]
      constructor
      · intro hmem
        rcases List.mem_append.mp hmem with h1 | h2
        · rcases List.mem_append.mp h1 with h3 | h4
          · exact absurd h3 bulk_not_mem_parseFailNotes
          · exact absurd h4 bulk_not_mem_convertNotes
        · cases h2
      · intro hc
        exact absurd hc hbc

/-- A unit with a category belongs to the corresponding table, and not
to the tables the if-chain checked earlier. -/
theorem unitCategory_mem {u : List Char} {cu : UnitCat}
    (h : unitCategory u = some cu) :
    (u ∈ volumeUnits ∧ cu = UnitCat.volume)
    ∨ (u ∉ volumeUnits ∧ u ∈ weightUnits ∧ cu = UnitCat.weight)
    ∨ (u ∉ volumeUnits ∧ u ∉ weightUnits ∧ u ∈ countUnits
        ∧ cu = UnitCat.count) := by
  unfold unitCategory at h
  split_ifs at h with h1 h2 h3
  · cases h
    exact Or.inl ⟨h1, rfl⟩
  · cases h
    exact Or.inr (Or.inl ⟨h1, h2, rfl⟩)
  · cases h
    exact Or.inr (Or.inr ⟨h1, h2, h3, rfl⟩)

/-- When all four checks of _convert_quantity fail, it returns None. -/
theorem convert_none_cond (q : ℚ) {u t : List Char} (hut : u ≠ t)
    (hv : ¬(u ∈ volumeUnits ∧ t ∈ volumeUnits))
    (hw : ¬(u ∈ weightUnits ∧ t ∈ weightUnits))
    (hc : ¬(u ∈ countUnits ∧ t ∈ countUnits)) :
    convertQuantity q u t = none := by
  unfold convertQuantity
  rw [if_neg hut, if_neg hv, if_neg hw, if_neg hc]

/-- Cross-category conversion always fails: a unit of one category is
never converted into a unit of a different category. -/
theorem convert_none_of_diff_cat (q : ℚ) {u t : List Char}
    {cu ct : UnitCat} (hu : unitCategory u = some cu)
    (ht : unitCategory t = some ct) (hne : cu ≠ ct) :
    convertQuantity q u t = none := by
  have hvw : ∀ w ∈ volumeUnits, w ∉ weightUnits := by decide
  have hvc : ∀ w ∈ volumeUnits, w ∉ countUnits := by decide
  have hwc : ∀ w ∈ weightUnits, w ∉ countUnits := by decide
  rcases unitCategory_mem hu with ⟨huv, rfl⟩ | ⟨hunv, huw, rfl⟩ |
    ⟨hunv, hunw, huc, rfl⟩ <;>
    rcases unitCategory_mem ht with ⟨htv, hc2⟩ | ⟨htnv, htw, hc2⟩ |
      ⟨htnv, htnw, htc, hc2⟩ <;> subst hc2
  · exact absurd rfl hne
  · exact convert_none_cond q (fun he => htnv (he ▸ huv))
      (fun hp => htnv hp.2) (fun hp => hvw u huv hp.1)
      (fun hp => hvc u huv hp.1)
  · exact convert_none_cond q (fun he => htnv (he ▸ huv))
      (fun hp => htnv hp.2) (fun hp => hvw u huv hp.1)
      (fun hp => hvc u huv hp.1)
  · exact convert_none_cond q (fun he => hunv (by rw [he]; exact htv))
      (fun hp => hunv hp.1) (fun hp => hvw t htv hp.2)
      (fun hp => hwc u huw hp.1)
  · exact absurd rfl hne
  · exact convert_none_cond q (fun he => htnw (he ▸ huw))
      (fun hp => htnv hp.2) (fun hp => htnw hp.2)
      (fun hp => hwc u huw hp.1)
  · exact convert_none_cond q (fun he => hunv (by rw [he]; exact htv))
      (fun hp => hunv hp.1) (fun hp => hunw hp.1)
      (fun hp => hvc t htv hp.2)
  · exact convert_none_cond q (fun he => hunw (by rw [he]; exact htw))
      (fun hp => hunv hp.1) (fun hp => hunw hp.1)
      (fun hp => hwc t htw hp.2)
  · exact absurd rfl hne

/-- C8: when merging a group, a parsed member whose unit has a different
unit category than the target unit is never converted: _convert_quantity
returns None for it, its raw unconverted value is its contribution to
the sum, and a conversion-mismatch note for it is recorded in the
combined notes (the embedding is total, so no exception can arise). -/
theorem C8_cross_category (l : List IngRecord)
    (x : ℚ × List Char × IngRecord) (cu ct : UnitCat)
    (hx : x ∈ qtriples l) (hne : qtriples l ≠ [])
    (hcu : unitCategory x.2.1 = some cu)
    (hct : unitCategory ((qtriples l).headI.2.1) = some ct)
    (hcc : cu ≠ ct) :
    convertQuantity x.1 x.2.1 ((qtriples l).headI.2.1) = none
    ∧ contributionTo ((qtriples l).headI.2.1) x = x.1
    ∧ OptNote.couldNotConvert x.1 x.2.1 ((qtriples l).headI.2.1)
        ∈ (combineQuantities l).2.2 := by
  have hnone : convertQuantity x.1 x.2.1 ((qtriples l).headI.2.1) = none :=
    convert_none_of_diff_cat x.1 hcu hct hcc
  refine ⟨hnone, ?_, ?_⟩
  · unfold contributionTo
    rw [hnone]
  · cases hq : qtriples l with
    | nil => exact absurd hq hne
    | cons q0 rest =>
      have hcomb2 : (combineQuantities l).2.2 =
          parseFailNotes l ++ convertNotes q0.2.1 (q0 :: rest) ++
            (if (if 1 ≤ convertedSum q0.2.1 (q0 :: rest)
                 then pyRound 2 (convertedSum q0.2.1 (q0 :: rest))
                 else pyRound 3 (convertedSum q0.2.1 (q0 :: rest))) > 5
                ∧ q0.2.1 ∈ bulkUnits
             then [OptNote.bulk
                    (if 1 ≤ convertedSum q0.2.1 (q0 :: rest)
                     then pyRound 2 (convertedSum q0.2.1 (q0 :: rest))
                     else pyRound 3 (convertedSum q0.2.1 (q0 :: rest)))
                    q0.2.1]
             else []) := by
        unfold combineQuantities
        rw [hq]
      rw [hq] at hx hnone
      simp only [List.headI] at hnone ⊢
      rw [hcomb2]
      refine List.mem_append_left _ (List.mem_append_right _ ?_)
      refine List.mem_filterMap.mpr ⟨x, hx, ?_⟩
      rw [hnone]

/-- C8 witness: in the cup/pounds butter group the target unit is "cup"
(volume) and the second member's unit "pounds" is weight, so its raw
value is added and a mismatch note recorded. -/
theorem C8_cross_category_witness :
    convertQuantity ((parseQuantity (chars "2")).getD 0) (chars "pounds")
        ((qtriples c8grp).headI.2.1) = none
    ∧ contributionTo ((qtriples c8grp).headI.2.1)
        ((parseQuantity (chars "2")).getD 0, chars "pounds", c8recB)
        = (parseQuantity (chars "2")).getD 0
    ∧ OptNote.couldNotConvert ((parseQuantity (chars "2")).getD 0)
        (chars "pounds") ((qtriples c8grp).headI.2.1)
        ∈ (combineQuantities c8grp).2.2 :=
  C8_cross_category c8grp
    ((parseQuantity (chars "2")).getD 0, chars "pounds", c8recB)
    UnitCat.weight UnitCat.volume
    (List.mem_cons_of_mem _ (List.mem_cons_self _ _))
    (by decide) (by decide) (by decide) (by decide)

/-- C7 witness: the 3-cups plus 4-cups flour group has a parseable
member, so the rounding and bulk-note characterization holds for it. -/
theorem C7_rounding_and_bulk_witness :
    (combineQuantities c7grp).1 =
      (if 1 ≤ convertedSum ((qtriples c7grp).headI.2.1) (qtriples c7grp)
       then pyRound 2 (convertedSum ((qtriples c7grp).headI.2.1)
              (qtriples c7grp))
       else pyRound 3 (convertedSum ((qtriples c7grp).headI.2.1)
              (qtriples c7grp)))
    ∧ (combineQuantities c7grp).2.1 = (qtriples c7grp).headI.2.1
    ∧ (OptNote.bulk (combineQuantities c7grp).1 ((qtriples c7grp).headI.2.1)
          ∈ (combineQuantities c7grp).2.2
        ↔ (5 < (combineQuantities c7grp).1
            ∧ (qtriples c7grp).headI.2.1 ∈ bulkUnits)) :=
  C7_rounding_and_bulk c7grp (by decide)

/-- The ingredient_map update does not change a record's key. -/
theorem keyOf_updRec (k prv : List Char) (r : ExtractedRecord) :
    keyOf (updRec k prv r) = keyOf r := by
  unfold updRec
  split <;> rfl

/-- Key uniqueness is preserved by the in-place update. -/
theorem uniq_map_updRec {acc : List ExtractedRecord} {k prv : List Char}
    (h : acc.Pairwise (fun a b => keyOf a ≠ keyOf b)) :
    (acc.map (updRec k prv)).Pairwise (fun a b => keyOf a ≠ keyOf b) := by
  rw [List.pairwise_map]
  exact h.imp fun hab => by rw [keyOf_updRec, keyOf_updRec]; exact hab

/-- The characterization of the extraction fold: for each key, the fold
either extends the accumulator's unique entry with the provenances of
the matching occurrences, or creates the entry from the first matching
occurrence — keeping its parsed quantity and unit — and appends the
provenances of the later ones. -/
theorem extract_fold (k : List Char) :
    ∀ (occs : List Occurrence) (acc : List ExtractedRecord),
      acc.Pairwise (fun a b => keyOf a ≠ keyOf b) →
      (occs.foldl extractStep acc).find? (keyP k) =
        (match acc.find? (keyP k) with
         | some r => some { r with recipes :=
             r.recipes ++ (occsMatching occs k).map (fun t => prov t.1) }
         | none =>
           match occsMatching occs k with
           | [] => none
           | (o, p) :: rest => some
               { name := p.name, quantity := p.quantity, unit := p.unit,
                 original_text := o.text,
                 recipes := prov o :: rest.map (fun t => prov t.1) }) := by
  intro occs
  induction occs with
  | nil =>
    intro acc _
    simp only [List.foldl_nil]
    cases hfind : acc.find? (keyP k) with
    | none => rfl
    | some r => simp [occsMatching]
  | cons o rest ih =>
    intro acc huniq
    rw [List.foldl_cons]
    cases hp : parseIngredient o.text with
    | none =>
      have hstep : extractStep acc o = acc := by
        unfold extractStep
        rw [hp]
      have hm : occsMatching (o :: rest) k = occsMatching rest k := by
        simp [occsMatching, List.filterMap_cons, hp]
      rw [hstep, ih acc huniq, hm]
    | some p =>
      by_cases hin : acc.any (keyP (keyOfName p.name)) = true
      · have hstep : extractStep acc o =
            acc.map (updRec (keyOfName p.name) (prov o)) := by
          unfold extractStep
          rw [hp]
          dsimp only
          rw [if_pos hin]
        rw [hstep, ih _ (uniq_map_updRec huniq)]
        have hfm : (acc.map (updRec (keyOfName p.name) (prov o))).find?
              (keyP k)
            = (acc.find? (keyP k)).map (updRec (keyOfName p.name) (prov o)) :=
          find?_map_comm (fun r => by unfold keyP; rw [keyOf_updRec]) acc
        rw [hfm]
        by_cases hkk : keyOfName p.name = k
        · subst hkk
          have hocc : occsMatching (o :: rest) (keyOfName p.name) =
              (o, p) :: occsMatching rest (keyOfName p.name) := by
            simp [occsMatching, List.filterMap_cons, hp]
          obtain ⟨r0, hr0⟩ : ∃ r0,
              acc.find? (keyP (keyOfName p.name)) = some r0 :=
            Option.isSome_iff_exists.mp (List.find?_isSome.mpr
              (List.any_eq_true.mp hin))
          have hkey0 : (keyOf r0 == keyOfName p.name) = true := by
            have hh := List.find?_some hr0
            unfold keyP at hh
            exact hh
          have hupd : updRec (keyOfName p.name) (prov o) r0 =
              { r0 with recipes := r0.recipes ++ [prov o] } := by
            unfold updRec
            rw [if_pos hkey0]
          rw [hocc, hr0, Option.map_some', hupd]
          simp [List.append_assoc]
        · have hocc : occsMatching (o :: rest) k = occsMatching rest k := by
            simp [occsMatching, List.filterMap_cons, hp, hkk]
          rw [hocc]
          cases hfind : acc.find? (keyP k) with
          | none => rfl
          | some r1 =>
            have hk1 : (keyOf r1 == k) = true := by
              have hh := List.find?_some hfind
              unfold keyP at hh
              exact hh
            have hne1 : (keyOf r1 == keyOfName p.name) = false := by
              rw [beq_eq_false_iff_ne, beq_iff_eq.mp hk1]
              exact fun he => hkk he.symm
            have hupd1 : updRec (keyOfName p.name) (prov o) r1 = r1 := by
              unfold updRec
              rw [hne1]
              simp
            rw [Option.map_some', hupd1]
      · have hstep : extractStep acc o =
            acc ++ [⟨p.name, p.quantity, p.unit, o.text, [prov o]⟩] := by
          unfold extractStep
          rw [hp]
          dsimp only
          rw [if_neg hin]
        have hall : ∀ r ∈ acc, (keyOf r == keyOfName p.name) = false := by
          intro r hr
          have hf : acc.any (keyP (keyOfName p.name)) = false :=
            Bool.eq_false_iff.mpr hin
          have := List.any_eq_false.mp hf r hr
          unfold keyP at this
          exact Bool.eq_false_iff.mpr this
        have huniq' : (acc ++
            [({ name := p.name, quantity := p.quantity, unit := p.unit,
                original_text := o.text, recipes := [prov o] } :
              ExtractedRecord)]).Pairwise
              (fun a b => keyOf a ≠ keyOf b) :=
          List.pairwise_append.mpr ⟨huniq, List.pairwise_singleton _ _,
            fun a ha b hb => by
              rw [List.mem_singleton] at hb
              subst hb
              exact ne_of_beq_false (hall a ha)⟩
        rw [hstep, ih _ huniq', List.find?_append]
        by_cases hkk : keyOfName p.name = k
        · subst hkk
          have hnone : acc.find? (keyP (keyOfName p.name)) = none :=
            List.find?_eq_none.mpr fun r hr => by
              unfold keyP
              rw [hall r hr]
              exact Bool.false_ne_true
          have hocc : occsMatching (o :: rest) (keyOfName p.name) =
              (o, p) :: occsMatching rest (keyOfName p.name) := by
            simp [occsMatching, List.filterMap_cons, hp]
          have hffresh : List.find? (keyP (keyOfName p.name))
              [⟨p.name, p.quantity, p.unit, o.text, [prov o]⟩] =
                some ⟨p.name, p.quantity, p.unit, o.text, [prov o]⟩ := by
            rw [List.find?_singleton, if_pos]
            unfold keyP keyOf
            exact beq_self_eq_true _
          rw [hnone, hffresh, Option.none_or, hocc]
          cases hfind2 : occsMatching rest (keyOfName p.name) with
          | nil => rfl
          | cons q qs => rfl
        · have hocc : occsMatching (o :: rest) k = occsMatching rest k := by
            simp [occsMatching, List.filterMap_cons, hp, hkk]
          have hffresh : List.find? (keyP k)
              [⟨p.name, p.quantity, p.unit, o.text, [prov o]⟩] = none := by
            rw [List.find?_singleton, if_neg]
            unfold keyP keyOf
            simp [keyOfName]
            exact fun he => hkk he
          rw [hffresh, Option.or_none, hocc]

/-- Key uniqueness of the extraction fold result. -/
theorem extract_fold_uniq :
    ∀ (occs : List Occurrence) (acc : List ExtractedRecord),
      acc.Pairwise (fun a b => keyOf a ≠ keyOf b) →
      (occs.foldl extractStep acc).Pairwise (fun a b => keyOf a ≠ keyOf b) := by
  intro occs
  induction occs with
  | nil => intro acc h; exact h
  | cons o rest ih =>
    intro acc huniq
    rw [List.foldl_cons]
    cases hp : parseIngredient o.text with
    | none =>
      have hstep : extractStep acc o = acc := by
        unfold extractStep
        rw [hp]
      rw [hstep]
      exact ih acc huniq
    | some p =>
      by_cases hin : acc.any (keyP (keyOfName p.name)) = true
      · have hstep : extractStep acc o =
            acc.map (updRec (keyOfName p.name) (prov o)) := by
          unfold extractStep
          rw [hp]
          dsimp only
          rw [if_pos hin]
        rw [hstep]
        exact ih _ (uniq_map_updRec huniq)
      · have hstep : extractStep acc o =
            acc ++ [⟨p.name, p.quantity, p.unit, o.text, [prov o]⟩] := by
          unfold extractStep
          rw [hp]
          dsimp only
          rw [if_neg hin]
        have hall : ∀ r ∈ acc, (keyOf r == keyOfName p.name) = false := by
          intro r hr
          have hf : acc.any (keyP (keyOfName p.name)) = false :=
            Bool.eq_false_iff.mpr hin
          have := List.any_eq_false.mp hf r hr
          unfold keyP at this
          exact Bool.eq_false_iff.mpr this
        rw [hstep]
        exact ih _ (List.pairwise_append.mpr ⟨huniq,
          List.pairwise_singleton _ _,
          fun a ha b hb => by
            rw [List.mem_singleton] at hb
            subst hb
            exact ne_of_beq_false (hall a ha)⟩)

/-- C10: within one extraction run, for every key with at least one
parseable occurrence, exactly one record is emitted for that key; it
carries the name, quantity and unit parsed from the first occurrence (in
the fixed day-major, meal-minor order) and the original text of that
occurrence, while every later matching occurrence contributes only its
provenance string — its quantity is discarded before the optimizer
runs. -/
theorem C10_first_occurrence_wins (wp : WeeklyPlan) (k : List Char)
    (o : Occurrence) (p : ParsedIngredient)
    (rest : List (Occurrence × ParsedIngredient))
    (h : matchingOccs wp k = (o, p) :: rest) :
    (extractIngredientsFromPlan wp).find? (keyP k) =
      some { name := p.name, quantity := p.quantity, unit := p.unit,
             original_text := o.text,
             recipes := prov o :: rest.map (fun t => prov t.1) }
    ∧ (extractIngredientsFromPlan wp).Pairwise
        (fun a b => keyOf a ≠ keyOf b) := by
  constructor
  · have hfold := extract_fold k (planOccurrences wp) [] List.Pairwise.nil
    unfold matchingOccs at h
    rw [h] at hfold
    exact hfold
  · exact extract_fold_uniq (planOccurrences wp) [] List.Pairwise.nil

/-- C10 witness: in the two-meal milk plan, the emitted milk record keeps
the Monday breakfast quantity "1 cup" and lists both provenances. -/
theorem C10_first_occurrence_wins_witness :
    ((extractIngredientsFromPlan c10Plan).find? (keyP (chars "milk")) =
      some { name := chars "milk", quantity := chars "1",
             unit := chars "cup", original_text := chars "1 cup milk",
             recipes := [chars "Monday breakfast: Oatmeal",
                         chars "Tuesday dinner: Pudding"] })
    ∧ (extractIngredientsFromPlan c10Plan).Pairwise
        (fun a b => keyOf a ≠ keyOf b) :=
  C10_first_occurrence_wins c10Plan (chars "milk")
    ⟨chars "Monday", chars "breakfast", chars "Oatmeal", chars "1 cup milk"⟩
    ⟨chars "1", chars "cup", chars "milk"⟩
    [(⟨chars "Tuesday", chars "dinner", chars "Pudding",
        chars "2 cups milk"⟩,
      ⟨chars "2", chars "cups", chars "milk"⟩)]
    (by decide)

example : parseIngredient (chars "2 cups flour") =
    some ⟨chars "2", chars "cups", chars "flour"⟩ := by decide

example : parseIngredient (chars "1/2 teaspoon salt") =
    some ⟨chars "1/2", chars "teaspoon", chars "salt"⟩ := by decide

example : parseIngredient (chars "0.5 cup flour") =
    some ⟨chars "0.5", chars "cup", chars "flour"⟩ := by decide

example : parseIngredient (chars "salt") =
    some ⟨chars "1", chars "", chars "salt"⟩ := by decide

example : parseIngredient (chars "   ") = none := by decide

end Cart
